import Mathlib

/-!
Verification of the pilot-training-portal application (`app.py`): a
configuration-driven form portal backed by a SQLite database.  The embedding
below translates the source's data model and operations into Lean:

* `FORM_CONFIG` mirrors the configuration dictionary (9 forms, each with a
  table name and an ordered mapping of question id to field attributes).
* The SQLite layer used by the source (`CREATE TABLE IF NOT EXISTS`,
  `INSERT INTO ... VALUES (...)`, `SELECT * FROM t ORDER BY ID DESC`) is
  modelled by `createTableIfNotExists`, `insertRow` and `listAll` over an
  explicit database value (an association list of named tables).  SQLite's
  flexible typing is modelled: a non-strict table never rejects a value for
  having the wrong type; instead the column's type affinity may convert it
  (`applyAffinity`).  Numeric payloads are modelled as integers.
* `submit_form`, `display_admin_table`, `display_page` and
  `create_form_callback` translate the like-named Python functions.
-/

namespace PilotPortal

/-- A SQLite storage value: NULL, a numeric value (INTEGER/REAL storage
classes, modelled with integer payloads), or TEXT. -/
inductive Val where
  | null : Val
  | num (i : Int) : Val
  | str (s : String) : Val
deriving DecidableEq

/-- Declared column types occurring in the source's `CREATE TABLE`
statements: `ID INTEGER PRIMARY KEY AUTOINCREMENT`, `REAL`, `TEXT`. -/
inductive ColType where
  | integerPK : ColType
  | real : ColType
  | text : ColType
deriving DecidableEq

abbrev Row := List Val

abbrev Schema := List (String × ColType)

/-- One SQLite table: its declared columns, its rows (each row aligned with
the schema, the `ID` value stored inline), and the next rowid that
`AUTOINCREMENT` will assign. -/
structure Table where
  schema : Schema
  rows : List Row
  nextId : Int
deriving DecidableEq

/-- The database: named tables in creation order. -/
abbrev DB := List (String × Table)

def lookupTable (db : DB) (name : String) : Option Table :=
  (db.find? (fun p => p.1 = name)).map (fun p => p.2)

/-- Models `CREATE TABLE IF NOT EXISTS name (columns)`: a no-op when a table
with that name already exists (whatever its columns), otherwise appends a
fresh empty table whose first rowid is 1. -/
def createTableIfNotExists (db : DB) (name : String) (schema : Schema) : DB :=
  match lookupTable db name with
  | some _ => db
  | none => db ++ [(name, ⟨schema, [], 1⟩)]

/-- The field widget kinds appearing in `FORM_CONFIG` (`"type"` values). -/
inductive FieldType where
  | text : FieldType
  | number : FieldType
  | textarea : FieldType
  | dropdown : FieldType
  | date : FieldType
deriving DecidableEq

/-- One entry of a form's `questions` mapping: column name, display label,
widget kind, dropdown options. -/
structure Question where
  name : String
  label : String
  ftype : FieldType
  options : Option (List String)
deriving DecidableEq

/-- One entry of `FORM_CONFIG`: the form's display name (the dict key), its
table name, and its ordered questions. -/
structure FormCfg where
  name : String
  table_name : String
  questions : List Question
deriving DecidableEq

/-- The source's `FORM_CONFIG` dictionary, in declaration order (Python
dicts preserve insertion order). -/
def FORM_CONFIG : List FormCfg := [
  ⟨"EBT Modules Forms", "EbtModules", [
    ⟨"ModuleNumber", "EBT Module Number", .number, none⟩,
    ⟨"Competency", "Key Competency Assessed", .dropdown,
      some ["Communication", "Leadership", "Situational Awareness"]⟩,
    ⟨"PerformanceScore", "Performance Score (1-5)", .number, none⟩]⟩,
  ⟨"Additional FSTD Forms", "AdditionalFstd", [
    ⟨"DeviceID", "Simulator Device ID", .text, none⟩,
    ⟨"Maneuver", "Maneuver Practiced", .dropdown,
      some ["Engine Failure on Takeoff", "Go-Around", "Crosswind Landing"]⟩,
    ⟨"Outcome", "Maneuver Outcome", .dropdown,
      some ["Successful", "Unstable Approach", "Requires Follow-up"]⟩]⟩,
  ⟨"Bespoke Additional FSTD Forms", "BespokeFstd", [
    ⟨"ScenarioName", "Bespoke Scenario Name", .text, none⟩,
    ⟨"TrainingObjective", "Primary Training Objective", .textarea, none⟩,
    ⟨"PilotFeedback", "Pilot Subjective Feedback", .textarea, none⟩]⟩,
  ⟨"Out of Phase Assessment Forms", "OutOfPhaseAssessment", [
    ⟨"AssessmentReason", "Reason for Assessment", .dropdown,
      some ["Post-Incident", "Performance Decline", "Return to Work"]⟩,
    ⟨"AssessorName", "Assessor Name", .text, none⟩,
    ⟨"FinalRecommendation", "Final Recommendation", .textarea, none⟩]⟩,
  ⟨"Line Event Forms", "LineEvents", [
    ⟨"FlightNumber", "Flight Number", .text, none⟩,
    ⟨"DepartureAirport", "Departure Airport (IATA)", .text, none⟩,
    ⟨"EventObserved", "Observed Event Description", .textarea, none⟩]⟩,
  ⟨"EBT-I AOC Forms", "EbtiAoc", [
    ⟨"AocReference", "AOC Reference Number", .text, none⟩,
    ⟨"IsConfirmed", "EBT Manager Acknowledged", .dropdown, some ["Yes", "No"]⟩,
    ⟨"ConfirmationDate", "Date of Acknowledgement", .date, none⟩]⟩,
  ⟨"Technical Ground Training Forms", "GroundTraining", [
    ⟨"CourseTitle", "Course Title", .text, none⟩,
    ⟨"AssessmentScore", "Assessment Score (%)", .number, none⟩,
    ⟨"InstructorFeedback", "Instructor Feedback", .textarea, none⟩]⟩,
  ⟨"Appendix 10 Forms", "Appendix10", [
    ⟨"FlightHours", "Total Flight Hours", .number, none⟩,
    ⟨"AircraftType", "Aircraft Type", .text, none⟩,
    ⟨"EndorsementSought", "Endorsement Sought", .text, none⟩]⟩,
  ⟨"Command Upgrade Forms", "CommandUpgrade", [
    ⟨"YearsAsFirstOfficer", "Years as First Officer", .number, none⟩,
    ⟨"CheckCaptain", "Check Captain Name", .text, none⟩,
    ⟨"UpgradeReadiness", "Upgrade Readiness Assessment", .dropdown,
      some ["Ready", "Not Ready", "Requires More Training"]⟩]⟩]

/-- The column type `init_db` declares for a question: `REAL` when the
field's type is `number`, `TEXT` otherwise (app.py lines 110-114). -/
def colTypeOf (q : Question) : ColType :=
  if q.ftype = .number then .real else .text

/-- The column list `init_db` assembles for one form: `ID INTEGER PRIMARY
KEY AUTOINCREMENT`, `SubmissionDate TEXT`, `TrainerName TEXT`,
`TrainingDate TEXT`, then one column per question (app.py lines 104-114). -/
def buildSchema (cfg : FormCfg) : Schema :=
  [("ID", .integerPK), ("SubmissionDate", .text), ("TrainerName", .text),
   ("TrainingDate", .text)] ++ cfg.questions.map (fun q => (q.name, colTypeOf q))

/-- Models `init_db()`: for each configured form, issue
`CREATE TABLE IF NOT EXISTS` with the derived column list (app.py 94-119). -/
def init_db (db : DB) : DB :=
  FORM_CONFIG.foldl (fun d cfg => createTableIfNotExists d cfg.table_name (buildSchema cfg)) db

def emptyDB : DB := []

/-- Digit-string value, `none` when the characters are not one-or-more
decimal digits. -/
def digitsVal (cs : List Char) : Option Nat :=
  if cs ≠ [] ∧ cs.all (fun c => c.isDigit)
  then some (cs.foldl (fun n c => 10 * n + (c.toNat - 48)) 0)
  else none

/-- Numeric-text detection used by SQLite type affinity, approximated to
optionally-signed decimal integers (the only numeric payloads modelled). -/
def parseIntText (s : String) : Option Int :=
  match s.data with
  | '-' :: cs => (digitsVal cs).map (fun n => -(n : Int))
  | cs => (digitsVal cs).map (fun n => (n : Int))

/-- SQLite type affinity for a non-strict table: a column never rejects a
value of the wrong type.  Numeric affinity (`INTEGER`/`REAL`) converts
numeric-looking text to a number and stores other text as given; `TEXT`
affinity converts numbers to their text form. -/
def applyAffinity (ct : ColType) (v : Val) : Val :=
  match ct, v with
  | _, .null => .null
  | .text, .num i => .str (toString i)
  | .text, .str s => .str s
  | _, .num i => .num i
  | _, .str s =>
    match parseIntText s with
    | some i => .num i
    | none => .str s

/-- The value supplied for column `cn` by an INSERT's column/value lists. -/
def valueFor (cols : List String) (vals : List Val) (cn : String) : Option Val :=
  ((cols.zip vals).find? (fun p => p.1 = cn)).map (fun p => p.2)

/-- The stored row an INSERT produces: for each schema column, the supplied
value after affinity conversion; an unsupplied `INTEGER PRIMARY KEY` column
receives the auto-assigned rowid, any other unsupplied column NULL. -/
def mkRow (schema : Schema) (rid : Int) (cols : List String) (vals : List Val) : Row :=
  schema.map (fun c =>
    match valueFor cols vals c.1 with
    | some v => applyAffinity c.2 v
    | none => match c.2 with
      | .integerPK => .num rid
      | _ => .null)

def updateTable (db : DB) (name : String) (t : Table) : DB :=
  db.map (fun p => if p.1 = name then (p.1, t) else p)

/-- Models `cursor.execute("INSERT INTO name (cols) VALUES (?...)", vals)`
followed by commit.  It raises (here: returns `.error`) when the table does
not exist, a named column is absent, or the binding count is wrong — all
`sqlite3.Error`s.  A value whose type does not match its column's declared
type is NOT an error in SQLite's non-strict tables: affinity applies. -/
def insertRow (db : DB) (name : String) (cols : List String) (vals : List Val) :
    Except String DB :=
  match lookupTable db name with
  | none => .error ("no such table: " ++ name)
  | some t =>
    match cols.find? (fun c => !((t.schema.map (fun p => p.1)).contains c)) with
    | some c => .error ("table " ++ name ++ " has no column named " ++ c)
    | none =>
      if cols.length = vals.length then
        .ok (updateTable db name
          ⟨t.schema, t.rows ++ [mkRow t.schema t.nextId cols vals], t.nextId + 1⟩)
      else .error "Incorrect number of bindings supplied"

/-- The rowid stored in a row's `ID` column (the first column of every table
this application creates). -/
def getId (r : Row) : Int :=
  match r with
  | .num i :: _ => i
  | _ => 0

/-- Insert one row into a list already sorted by `ID` descending, keeping it
sorted. -/
def insertByIdDesc (r : Row) : List Row → List Row
  | [] => [r]
  | x :: xs => if getId x ≤ getId r then r :: x :: xs else x :: insertByIdDesc r xs

/-- Models SQL `ORDER BY ID DESC` (insertion sort on the `ID` column,
descending). -/
def orderByIdDesc : List Row → List Row
  | [] => []
  | x :: xs => insertByIdDesc x (orderByIdDesc xs)

/-- Models `SELECT * FROM name ORDER BY ID DESC` (app.py line 233): the
column headers and all rows, most recent rowid first; an error when the
table does not exist. -/
def listAll (db : DB) (name : String) : Except String (List String × List Row) :=
  match lookupTable db name with
  | none => .error ("no such table: " ++ name)
  | some t => .ok (t.schema.map (fun p => p.1), orderByIdDesc t.rows)

/-- The triple a form callback returns to Dash: the alert's `is_open`,
`children` (message) and `color` outputs. -/
structure Alert where
  is_open : Bool
  children : String
  color : String
deriving DecidableEq

/-- Python truthiness test `val is None or val == ''` applied to a raw
callback argument (`None` is modelled as `none`; only a string compares
equal to `''`). -/
def isMissing (v : Option Val) : Bool :=
  match v with
  | none => true
  | some (.str s) => s = ""
  | some _ => false

/-- Unwraps a raw argument for the INSERT parameter list; only reached after
the all-present validation guard, where every argument is `some`. -/
def unwrapArg (v : Option Val) : Val := v.getD (.str "")

/-- Models the body of `submit_form` (app.py 265-285), parameterized by the
`table_name` and `question_ids` that `create_form_callback` binds.  `args`
is the State tuple `(trainer_name, training_date, *dynamic_values)`; `now`
is the formatted `datetime.datetime.now()` string; `n_clicks = 0` models a
falsy click count.  Returns the database after the call and the alert. -/
def submit_form (table_name : String) (question_ids : List String) (db : DB)
    (now : String) (n_clicks : Nat) (args : List (Option Val)) : DB × Alert :=
  if n_clicks = 0 then (db, ⟨false, "", "light"⟩)
  else if args.any isMissing then
    (db, ⟨true, "Please fill out all required fields.", "warning"⟩)
  else
    let columns := ["SubmissionDate", "TrainerName", "TrainingDate"] ++ question_ids
    let values := Val.str now :: args.map unwrapArg
    match insertRow db table_name columns values with
    | .ok db2 => (db2, ⟨true, "Form submitted successfully!", "success"⟩)
    | .error e => (db, ⟨true, "Database error: " ++ e, "danger"⟩)

/-- What `display_admin_table` returns: an informational alert, the
DataTable (column names and row data), or a danger alert on error. -/
inductive AdminResult where
  | infoAlert (msg : String) (color : String) : AdminResult
  | dataTable (columns : List String) (data : List Row) : AdminResult
  | errorAlert (msg : String) (color : String) : AdminResult
deriving DecidableEq

/-- Models `display_admin_table` (app.py 228-243).  `table_name` is the
dropdown's value: `none` before any selection; `if not table_name` is also
true for the empty string.  On a selected table it runs
`SELECT * FROM t ORDER BY ID DESC`; any exception becomes a danger alert
carrying the underlying message. -/
def display_admin_table (db : DB) (table_name : Option String) : AdminResult :=
  match table_name with
  | none => .infoAlert "Please select a form type to see the data." "info"
  | some t =>
    if t = "" then .infoAlert "Please select a form type to see the data." "info"
    else
      match listAll db t with
      | .ok (cols, rows) => .dataTable cols rows
      | .error e =>
        .errorAlert ("Error loading data for table \x27" ++ t ++ "\x27: " ++ e) "danger"

/-- Python's single-character `str.replace(a, b)` (replaces every
occurrence). -/
def replaceChar (a b : Char) (s : String) : String :=
  ⟨s.data.map (fun c => if c = a then b else c)⟩

/-- The slug used in hrefs and component ids: `name.replace(' ', '-')`
(app.py lines 124, 177, 248). -/
def slugOf (name : String) : String := replaceChar ' ' '-' name

/-- The navigation href the layout generates for a form name:
`f"/form/{name.replace(' ', '-')}"` (app.py line 177). -/
def navHref (name : String) : String := "/form/" ++ slugOf name

/-- Python's `pathname.split('/')[-1]`: the segment after the last slash. -/
def lastSegment (s : String) : String :=
  ⟨(s.data.reverse.takeWhile (fun c => c ≠ '/')).reverse⟩

/-- Python's `pathname.startswith('/form/')`. -/
def startsWithFormSlash (s : String) : Bool :=
  s.data.take 6 = "/form/".data

/-- The pages `display_page` can return. -/
inductive Page where
  | formPage (name : String) : Page
  | notFound : Page
  | adminPage : Page
  | welcome : Page
deriving DecidableEq

/-- Models the routing callback `display_page` (app.py 196-220): a
`/form/...` path takes the last segment, turns dashes back into spaces and
looks the result up in `FORM_CONFIG`; unknown names give the 404 page. -/
def display_page (pathname : String) : Page :=
  if startsWithFormSlash pathname then
    let form_name := replaceChar '-' ' ' (lastSegment pathname)
    if (FORM_CONFIG.map (fun c => c.name)).contains form_name then .formPage form_name
    else .notFound
  else if pathname = "/admin" then .adminPage
  else .welcome

/-- The data `create_form_callback` (app.py 247-256) binds into the
registered `submit_form` callback: the slug used for the component ids and
the `table_name` and `question_ids` the closure captures.  These are
parameters of `create_form_callback`, not the loop variables of the
registration loop. -/
structure Handler where
  form_slug : String
  table_name : String
  question_ids : List String
deriving DecidableEq

def create_form_callback (form_name : String) (config : FormCfg) : Handler :=
  ⟨slugOf form_name, config.table_name, config.questions.map (fun q => q.name)⟩

/-- Invoking a registered handler's `submit_form` with the given database,
timestamp, click count and State values. -/
def Handler.run (h : Handler) (db : DB) (now : String) (n_clicks : Nat)
    (args : List (Option Val)) : DB × Alert :=
  submit_form h.table_name h.question_ids db now n_clicks args

/-- The handlers registered by the loop `for name, conf in
FORM_CONFIG.items(): create_form_callback(name, conf)` (app.py 289-290). -/
def registeredHandlers : List (String × Handler) :=
  FORM_CONFIG.map (fun cfg => (cfg.name, create_form_callback cfg.name cfg))

/-- Well-formedness of a table's rowid bookkeeping: every stored row carries
its rowid in the first column and every stored rowid is below `nextId`.
This holds for every table the application builds (created empty by
`init_db`, grown only by `insertRow`). -/
def wfTable (t : Table) : Bool :=
  t.rows.all (fun r =>
    match r with
    | .num i :: _ => decide (i < t.nextId)
    | _ => false)

/-- Rows sorted by their `ID` column, descending. -/
def sortedByIdDesc (l : List Row) : Prop :=
  l.Pairwise (fun a b => getId b ≤ getId a)

/-- Value shapes as delivered by the form's input widgets: a `number` input
yields a numeric value, every other widget kind yields a (non-empty, for
the claims below) string. -/
def rendererOk (q : Question) (v : Val) : Bool :=
  match q.ftype, v with
  | .number, .num _ => true
  | .number, _ => false
  | _, .str s => s ≠ ""
  | _, _ => false

/-- Stated from the claim's words, for comparison with the compiled schema:
identifier, submission timestamp, trainer name, training date, then one
column per declared field in declaration order with the same name, numeric
fields stored as REAL and all others as TEXT. -/
def claimSchema (cfg : FormCfg) : Schema :=
  ("ID", .integerPK) :: ("SubmissionDate", .text) :: ("TrainerName", .text) ::
    ("TrainingDate", .text) ::
    cfg.questions.map (fun q => (q.name, if q.ftype = .number then ColType.real else ColType.text))

/-- The fold `init_db` performs, over an arbitrary configuration list. -/
def initFold (l : List FormCfg) (db : DB) : DB :=
  l.foldl (fun d cfg => createTableIfNotExists d cfg.table_name (buildSchema cfg)) db

/-- The first configured form, "EBT Modules Forms", used in the concrete
instantiations below. -/
def ebtCfg : FormCfg := FORM_CONFIG.headD ⟨"", "", []⟩

/-- The database produced by running the schema compiler on an empty store. -/
def dbInit : DB := init_db emptyDB

/-- A pre-existing table whose layout diverges from the configuration, used
to check that `init_db` never redefines an existing table. -/
def preTable : Table := ⟨[("ID", ColType.integerPK)], [], 1⟩

def preDB : DB := [("EbtModules", preTable)]

/-- One stored EBT Modules row, as produced by a first valid submission. -/
def ebtRow1 : Row :=
  [Val.num 1, .str "2024-03-01 10:00:00", .str "J. Smith", .str "2024-03-01",
   .num 3, .str "Leadership", .num 4]

/-- The database after that first submission. -/
def dbOne : DB := updateTable dbInit "EbtModules" ⟨buildSchema ebtCfg, [ebtRow1], 2⟩

/-- The column list `submit_form` supplies when inserting into the EBT
Modules table. -/
def submitCols : List String :=
  ["SubmissionDate", "TrainerName", "TrainingDate", "ModuleNumber", "Competency",
   "PerformanceScore"]

/-- The values of a second valid submission. -/
def vals2 : List Val :=
  [.str "2024-03-02 09:00:00", .str "A. Jones", .str "2024-03-02",
   .num 5, .str "Communication", .num 3]

def ebtRow2 : Row := mkRow (buildSchema ebtCfg) 2 submitCols vals2

/-- The database after the second submission. -/
def dbTwo : DB := updateTable dbOne "EbtModules" ⟨buildSchema ebtCfg, [ebtRow1, ebtRow2], 3⟩

/-- The tail of the EBT Modules schema (everything after the `ID` column). -/
def ebtRest : Schema :=
  [("SubmissionDate", .text), ("TrainerName", .text), ("TrainingDate", .text),
   ("ModuleNumber", .real), ("Competency", .text), ("PerformanceScore", .real)]

/-- Submission values carrying a non-numeric string ("abc") for the REAL
column `ModuleNumber`. -/
def badVals : List Val :=
  [.str "2024-03-01 10:00:00", .str "J. Smith", .str "2024-03-01",
   .str "abc", .str "Leadership", .num 4]

/-- The database state after `badVals` is inserted: the insert succeeds and
the incompatible value is stored as text in the REAL column. -/
def dbBad : DB := updateTable dbInit "EbtModules"
  ⟨buildSchema ebtCfg,
   [[Val.num 1, .str "2024-03-01 10:00:00", .str "J. Smith", .str "2024-03-01",
     .str "abc", .str "Leadership", .num 4]], 2⟩

/-! ### Helper lemmas: table lookup and `init_db` -/

lemma lookupTable_append_of_isSome {db : DB} {n : String} (l : DB)
    (h : (lookupTable db n).isSome) : lookupTable (db ++ l) n = lookupTable db n := by
  induction db with
  | nil => simp [lookupTable] at h
  | cons p db ih =>
    by_cases hp : p.1 = n
    · simp [lookupTable, List.find?, hp]
    · simp only [lookupTable, List.find?, List.cons_append] at h ⊢
      rw [decide_eq_false hp] at h ⊢
      exact ih h

lemma lookupTable_append_single_of_none {db : DB} {n : String} {t : Table}
    (h : lookupTable db n = none) : lookupTable (db ++ [(n, t)]) n = some t := by
  induction db with
  | nil => simp [lookupTable, List.find?]
  | cons p db ih =>
    by_cases hp : p.1 = n
    · simp [lookupTable, List.find?, hp] at h
    · simp only [lookupTable, List.find?, List.cons_append] at h ⊢
      rw [decide_eq_false hp] at h ⊢
      exact ih h

lemma createTable_of_isSome {db : DB} {n : String} (s : Schema)
    (h : (lookupTable db n).isSome) : createTableIfNotExists db n s = db := by
  unfold createTableIfNotExists
  cases hl : lookupTable db n with
  | none => rw [hl] at h; simp at h
  | some t => rfl

lemma lookupTable_createTable_self (db : DB) (n : String) (s : Schema) :
    (lookupTable (createTableIfNotExists db n s) n).isSome := by
  unfold createTableIfNotExists
  cases hl : lookupTable db n with
  | none => rw [lookupTable_append_single_of_none hl]; rfl
  | some t => rw [hl]; rfl

lemma lookupTable_createTable_preserve {db : DB} {m : String} {t : Table}
    (n : String) (s : Schema) (h : lookupTable db m = some t) :
    lookupTable (createTableIfNotExists db n s) m = some t := by
  unfold createTableIfNotExists
  cases hl : lookupTable db n with
  | none => rw [lookupTable_append_of_isSome _ (by rw [h]; rfl)]; exact h
  | some u => exact h

lemma init_db_eq_initFold (db : DB) : init_db db = initFold FORM_CONFIG db := rfl

lemma initFold_preserve {db : DB} {m : String} {t : Table} (l : List FormCfg)
    (h : lookupTable db m = some t) : lookupTable (initFold l db) m = some t := by
  induction l generalizing db with
  | nil => exact h
  | cons c l ih => exact ih (lookupTable_createTable_preserve _ _ h)

lemma initFold_isSome {db : DB} {cfg : FormCfg} (l : List FormCfg) (hc : cfg ∈ l) :
    (lookupTable (initFold l db) cfg.table_name).isSome := by
  induction l generalizing db with
  | nil => cases hc
  | cons c l ih =>
    rcases List.mem_cons.mp hc with rfl | hc
    · rcases Option.isSome_iff_exists.mp
        (lookupTable_createTable_self db cfg.table_name (buildSchema cfg)) with ⟨t, ht⟩
      exact Option.isSome_iff_exists.mpr ⟨t, initFold_preserve l ht⟩
    · exact ih hc

lemma initFold_of_allSome {db : DB} (l : List FormCfg)
    (h : ∀ cfg ∈ l, (lookupTable db cfg.table_name).isSome) : initFold l db = db := by
  induction l with
  | nil => rfl
  | cons c l ih =>
    show initFold l (createTableIfNotExists db c.table_name (buildSchema c)) = db
    rw [createTable_of_isSome _ (h c (List.mem_cons_self c l))]
    exact ih (fun cfg hc => h cfg (List.mem_cons_of_mem c hc))

/-! ### Helper lemmas: the `ORDER BY ID DESC` model -/

lemma perm_insertByIdDesc (r : Row) (l : List Row) : (insertByIdDesc r l).Perm (r :: l) := by
  induction l with
  | nil => exact List.Perm.refl _
  | cons x xs ih =>
    unfold insertByIdDesc
    by_cases h : getId x ≤ getId r
    · rw [if_pos h]
    · rw [if_neg h]
      exact List.Perm.trans (ih.cons x) (List.Perm.swap r x xs)

lemma perm_orderByIdDesc (l : List Row) : (orderByIdDesc l).Perm l := by
  induction l with
  | nil => exact List.Perm.refl _
  | cons x xs ih => exact List.Perm.trans (perm_insertByIdDesc x (orderByIdDesc xs)) (ih.cons x)

lemma length_orderByIdDesc (l : List Row) : (orderByIdDesc l).length = l.length :=
  (perm_orderByIdDesc l).length_eq

lemma sorted_insertByIdDesc {l : List Row} (r : Row) (h : sortedByIdDesc l) :
    sortedByIdDesc (insertByIdDesc r l) := by
  induction l with
  | nil => simp [insertByIdDesc, sortedByIdDesc]
  | cons x xs ih =>
    rcases List.pairwise_cons.mp h with ⟨hx, hxs⟩
    unfold insertByIdDesc
    by_cases hle : getId x ≤ getId r
    · rw [if_pos hle]
      refine List.pairwise_cons.mpr ⟨?_, h⟩
      intro y hy
      rcases List.mem_cons.mp hy with rfl | hy
      · exact hle
      · exact le_trans (hx y hy) hle
    · rw [if_neg hle]
      refine List.pairwise_cons.mpr ⟨?_, ih hxs⟩
      intro y hy
      have hy2 : y ∈ r :: xs := (perm_insertByIdDesc r xs).mem_iff.mp hy
      rcases List.mem_cons.mp hy2 with rfl | hy2
      · exact le_of_lt (lt_of_not_le hle)
      · exact hx y hy2

lemma sorted_orderByIdDesc (l : List Row) : sortedByIdDesc (orderByIdDesc l) := by
  induction l with
  | nil => simp [orderByIdDesc, sortedByIdDesc]
  | cons x xs ih => exact sorted_insertByIdDesc x ih

lemma head_orderByIdDesc_max {l : List Row} {r : Row}
    (h : ∀ x ∈ l, getId x < getId r) : (orderByIdDesc (l ++ [r])).head? = some r := by
  have hperm := perm_orderByIdDesc (l ++ [r])
  have hsorted := sorted_orderByIdDesc (l ++ [r])
  cases hl : orderByIdDesc (l ++ [r]) with
  | nil =>
    have := hperm.length_eq
    rw [hl] at this
    simp at this
  | cons hd tl =>
    rw [hl] at hperm hsorted
    have hhd : hd ∈ l ++ [r] := hperm.mem_iff.mp (List.mem_cons_self hd tl)
    rcases List.mem_append.mp hhd with hmem | hmem
    · exfalso
      have hlt : getId hd < getId r := h hd hmem
      have hr : r ∈ hd :: tl := hperm.mem_iff.mpr (List.mem_append_right l (List.mem_singleton_self r))
      rcases List.mem_cons.mp hr with rfl | hr
      · exact lt_irrefl _ hlt
      · exact absurd ((List.pairwise_cons.mp hsorted).1 r hr) (not_le_of_lt hlt)
    · rw [List.mem_singleton.mp hmem]
      rfl

/-! ### Helper lemmas: the stored row an INSERT produces -/

lemma valueFor_cons_self (cols : List String) (vals : List Val) (cn : String) (v : Val) :
    valueFor (cn :: cols) (v :: vals) cn = some v := by
  simp [valueFor, List.find?]

lemma valueFor_cons_ne {c cn : String} (cols : List String) (vals : List Val) (v : Val)
    (h : cn ≠ c) : valueFor (c :: cols) (v :: vals) cn = valueFor cols vals cn := by
  simp only [valueFor, List.zip_cons_cons, List.find?]
  rw [decide_eq_false (fun he => h he.symm)]
  rfl

lemma valueFor_eq_none {cols : List String} (vals : List Val) {cn : String}
    (h : cn ∉ cols) : valueFor cols vals cn = none := by
  unfold valueFor
  rw [List.find?_eq_none.mpr]
  · rfl
  · intro p hp hpcn
    exact h (by
      have := (List.of_mem_zip hp).1
      rwa [of_decide_eq_true hpcn] at this)

lemma mkRow_body_eq (rest : Schema) (f : String × ColType → Val) :
    ∀ (vals : List Val), vals.length = rest.length → (rest.map Prod.fst).Nodup →
    rest.map (fun c =>
        match valueFor (rest.map Prod.fst) vals c.1 with
        | some v => applyAffinity c.2 v
        | none => f c)
      = (rest.zip vals).map (fun p => applyAffinity p.1.2 p.2) := by
  induction rest with
  | nil => intro vals _ _; simp
  | cons c rest ih =>
    intro vals hlen hnd
    obtain ⟨cn, ct⟩ := c
    cases vals with
    | nil => simp at hlen
    | cons v vals =>
      have hlen2 : vals.length = rest.length := by simpa using hlen
      rcases List.pairwise_cons.mp hnd with ⟨hcn, hnd2⟩
      simp only [List.map_cons, List.zip_cons_cons]
      rw [valueFor_cons_self]
      congr 1
      have hstep : ∀ c2 ∈ rest, (match valueFor (cn :: rest.map Prod.fst) (v :: vals) c2.1 with
          | some w => applyAffinity c2.2 w
          | none => f c2)
          = (match valueFor (rest.map Prod.fst) vals c2.1 with
          | some w => applyAffinity c2.2 w
          | none => f c2) := by
        intro c2 hc2
        rw [valueFor_cons_ne _ _ _ (hcn c2.1 (List.mem_map_of_mem Prod.fst hc2)).symm]
      rw [List.map_congr_left hstep]
      exact ih vals hlen2 hnd2

lemma mkRow_eq (rid : Int) (rest : Schema) (vals : List Val)
    (hlen : vals.length = rest.length)
    (hnd : ("ID" :: rest.map Prod.fst).Nodup) :
    mkRow (("ID", ColType.integerPK) :: rest) rid (rest.map Prod.fst) vals
      = Val.num rid :: (rest.zip vals).map (fun p => applyAffinity p.1.2 p.2) := by
  rcases List.pairwise_cons.mp hnd with ⟨hid, hnd2⟩
  unfold mkRow
  simp only [List.map_cons]
  rw [valueFor_eq_none vals (fun hm => hid "ID" hm rfl)]
  congr 1
  exact mkRow_body_eq rest _ vals hlen hnd2

/-- Affinity conversion is the identity on widget-shaped values: a numeric
value stored in the REAL column of a `number` field, a string stored in the
TEXT column of any other field. -/
lemma questions_affinity (qs : List Question) :
    ∀ (vs : List Val), vs.length = qs.length →
    (qs.zip vs).all (fun p => rendererOk p.1 p.2) = true →
    ((qs.map (fun q => (q.name, colTypeOf q))).zip vs).map
        (fun p => applyAffinity p.1.2 p.2) = vs := by
  induction qs with
  | nil =>
    intro vs hlen _
    have hvs : vs = [] := List.length_eq_zero.mp (by simpa using hlen)
    subst hvs
    rfl
  | cons q qs ih =>
    intro vs hlen hall
    cases vs with
    | nil => simp at hlen
    | cons v vs =>
      simp only [List.zip_cons_cons, List.all_cons, Bool.and_eq_true] at hall
      simp only [List.map_cons, List.zip_cons_cons, List.map_cons]
      rw [ih vs (by simpa using hlen) hall.2]
      congr 1
      rcases hall with ⟨hok, -⟩
      cases hft : q.ftype <;> cases v <;>
        simp [rendererOk, hft] at hok <;>
        simp [colTypeOf, hft, applyAffinity]

/-! ### Helper lemmas: `updateTable` and `insertRow` -/

lemma updateTable_key (p : String × Table) (n : String) (t : Table) :
    (if p.1 = n then (p.1, t) else p).1 = p.1 := by
  split <;> rfl

lemma lookupTable_updateTable (db : DB) (n m : String) (t : Table) :
    lookupTable (updateTable db n t) m
      = (db.find? (fun p => p.1 = m)).map
          (fun p => if p.1 = n then t else p.2) := by
  unfold lookupTable updateTable
  rw [List.find?_map]
  have hpred : ((fun p : String × Table => decide (p.1 = m)) ∘
      (fun p : String × Table => if p.1 = n then (p.1, t) else p))
      = (fun p : String × Table => decide (p.1 = m)) := by
    funext p
    simp only [Function.comp_apply, updateTable_key]
  rw [hpred, Option.map_map]
  have hfun : ((fun p : String × Table => p.2) ∘
      (fun p : String × Table => if p.1 = n then (p.1, t) else p))
      = (fun p : String × Table => if p.1 = n then t else p.2) := by
    funext p
    by_cases hp : p.1 = n <;> simp [Function.comp, hp]
  rw [hfun]

lemma lookupTable_updateTable_ne (db : DB) {n m : String} (t : Table) (h : m ≠ n) :
    lookupTable (updateTable db n t) m = lookupTable db m := by
  rw [lookupTable_updateTable]
  unfold lookupTable
  cases hf : db.find? (fun p => p.1 = m) with
  | none => rfl
  | some p =>
    have hp0 := List.find?_some hf
    have hp : p.1 = m := of_decide_eq_true hp0
    show Option.map (fun p : String × Table => if p.1 = n then t else p.2) (some p)
      = Option.map (fun p : String × Table => p.2) (some p)
    show some (if p.1 = n then t else p.2) = some p.2
    rw [if_neg (fun he => h (hp ▸ he))]

lemma lookupTable_updateTable_self (db : DB) {n : String} {u : Table} (t : Table)
    (h : lookupTable db n = some u) : lookupTable (updateTable db n t) n = some t := by
  rw [lookupTable_updateTable]
  unfold lookupTable at h
  cases hf : db.find? (fun p => p.1 = n) with
  | none => rw [hf] at h; simp at h
  | some p =>
    have hp0 := List.find?_some hf
    have hp : p.1 = n := of_decide_eq_true hp0
    show some (if p.1 = n then t else p.2) = some t
    rw [if_pos hp]

/-- Column names of every compiled table are distinct (checked over the
whole configuration). -/
lemma form_config_schema_nodup :
    ∀ cfg ∈ FORM_CONFIG, ((buildSchema cfg).map Prod.fst).Nodup := by decide

/-- Table names of distinct configured forms are distinct (checked over the
whole configuration). -/
lemma form_config_tables_distinct :
    ∀ c1 ∈ FORM_CONFIG, ∀ c2 ∈ FORM_CONFIG, c1.name ≠ c2.name → c1.table_name ≠ c2.table_name := by
  decide

/-! ### Claim C3: compiled table layout -/

/-- C3: for every FormDefinition in the configuration, the table created by
the schema compiler has exactly the columns ID (INTEGER PRIMARY KEY),
SubmissionDate, TrainerName, TrainingDate, followed by one column per
declared field in declaration order with the same name, a numeric field
mapping to REAL and every other field kind to TEXT (`claimSchema` states
this column rule in the claim's words; the compiled table is compared with
it, and starts empty with first rowid 1). -/
theorem compiled_schema_matches_claim :
    ∀ cfg ∈ FORM_CONFIG,
      lookupTable (init_db emptyDB) cfg.table_name = some ⟨claimSchema cfg, [], 1⟩ := by
  decide

theorem compiled_schema_matches_claim_witness :
    lookupTable (init_db emptyDB) "EbtModules" = some ⟨claimSchema ebtCfg, [], 1⟩ :=
  compiled_schema_matches_claim ebtCfg (by decide)

/-! ### Claim C4: idempotent table creation -/

/-- C4: running the table-creation step a second time against the same
persisted store is a no-op (the whole database value is unchanged), and an
existing table — whatever its layout and contents — is never dropped or
redefined by `init_db`. -/
theorem init_db_idempotent_no_redefine (db : DB) :
    init_db (init_db db) = init_db db ∧
    ∀ n t, lookupTable db n = some t → lookupTable (init_db db) n = some t := by
  constructor
  · rw [init_db_eq_initFold (init_db db), init_db_eq_initFold db]
    exact initFold_of_allSome _ (fun cfg hc => initFold_isSome _ hc)
  · intro n t h
    rw [init_db_eq_initFold]
    exact initFold_preserve _ h

theorem init_db_idempotent_no_redefine_witness :
    init_db (init_db preDB) = init_db preDB ∧
    lookupTable (init_db preDB) "EbtModules" = some preTable :=
  ⟨(init_db_idempotent_no_redefine preDB).1,
   (init_db_idempotent_no_redefine preDB).2 "EbtModules" preTable (by decide)⟩

/-! ### Claim C6: browse with no selected table -/

/-- C6: `display_admin_table` with an unselected (`None`) or empty table
name returns the informational placeholder; the result does not depend on
the database, and on this path the definition issues no `listAll` query. -/
theorem browse_unselected_placeholder (db : DB) :
    display_admin_table db none
        = .infoAlert "Please select a form type to see the data." "info" ∧
    display_admin_table db (some "")
        = .infoAlert "Please select a form type to see the data." "info" :=
  ⟨rfl, rfl⟩

/-! ### Claim C10: the slug round-trip -/

/-- C10: the claim that slugifying every configured form name and resolving
it back yields the original name FAILS on the configured name
"EBT-I AOC Forms": its generated navigation link "/form/EBT-I-AOC-Forms"
de-slugs to "EBT I AOC Forms", which is not a configuration key, so
`display_page` returns the 404 page for that form's own link. -/
theorem slug_roundtrip_404 :
    ("EBT-I AOC Forms" ∈ FORM_CONFIG.map (fun c => c.name)) ∧
    navHref "EBT-I AOC Forms" = "/form/EBT-I-AOC-Forms" ∧
    replaceChar '-' ' ' (slugOf "EBT-I AOC Forms") = "EBT I AOC Forms" ∧
    display_page "/form/EBT-I-AOC-Forms" = Page.notFound := by
  decide

/-! ### Claim C2: missing required values -/

/-- C2: for every submission (a clicked form, `n_clicks ≠ 0`) in which the
trainer name, the training date, or any declared field's raw value is
absent (`none`) or the empty string, `submit_form` returns the
"Please fill out all required fields." warning alert and leaves the
database — hence every table's contents — unchanged. -/
theorem submit_missing_field_no_insert (table_name : String) (question_ids : List String)
    (db : DB) (now : String) (n_clicks : Nat)
    (trainerArg dateArg : Option Val) (fieldArgs : List (Option Val))
    (hn : n_clicks ≠ 0)
    (hmiss : isMissing trainerArg = true ∨ isMissing dateArg = true ∨
      ∃ v ∈ fieldArgs, isMissing v = true) :
    submit_form table_name question_ids db now n_clicks (trainerArg :: dateArg :: fieldArgs)
      = (db, ⟨true, "Please fill out all required fields.", "warning"⟩) := by
  unfold submit_form
  rw [if_neg hn]
  have hany : (trainerArg :: dateArg :: fieldArgs).any isMissing = true := by
    simp only [List.any_cons, Bool.or_eq_true]
    rcases hmiss with h | h | ⟨v, hv, h⟩
    · exact Or.inl h
    · exact Or.inr (Or.inl h)
    · exact Or.inr (Or.inr (List.any_eq_true.mpr ⟨v, hv, h⟩))
  rw [if_pos hany]

theorem submit_missing_field_no_insert_witness :
    submit_form "EbtModules" ["ModuleNumber", "Competency", "PerformanceScore"] dbInit
        "2024-03-01 10:00:00" 1
        [some (.str "J. Smith"), some (.str "2024-03-01"),
         some (.num 3), some (.str ""), some (.num 4)]
      = (dbInit, ⟨true, "Please fill out all required fields.", "warning"⟩) :=
  submit_missing_field_no_insert "EbtModules" ["ModuleNumber", "Competency", "PerformanceScore"]
    dbInit "2024-03-01 10:00:00" 1 (some (.str "J. Smith")) (some (.str "2024-03-01"))
    [some (.num 3), some (.str ""), some (.num 4)] (by decide)
    (Or.inr (Or.inr ⟨some (.str ""), by decide, by decide⟩))

/-! ### Claim C1: a valid submission inserts exactly one row -/

/-- C1: for every configured form and every clicked submission whose
trainer name, training date and declared field values are all present and
non-empty (field values having the shapes the form's widgets deliver:
numbers for `number` fields, non-empty strings otherwise), `submit_form`
returns the success alert and the database with exactly one row appended to
that form's table — its column values being, in the documented order, the
auto-assigned rowid, the submission timestamp, the trainer name, the
training date, then each declared field value in FormDefinition order;
no other table is touched. -/
theorem submit_valid_inserts_exact_row
    (cfg : FormCfg) (hcfg : cfg ∈ FORM_CONFIG)
    (db : DB) (t : Table)
    (hlook : lookupTable db cfg.table_name = some t)
    (hschema : t.schema = buildSchema cfg)
    (now trainer date : String) (fieldVals : List Val) (n_clicks : Nat)
    (hn : n_clicks ≠ 0) (htr : trainer ≠ "") (hdt : date ≠ "")
    (hlen : fieldVals.length = cfg.questions.length)
    (hok : (cfg.questions.zip fieldVals).all (fun p => rendererOk p.1 p.2) = true) :
    submit_form cfg.table_name (cfg.questions.map (fun q => q.name)) db now n_clicks
        (some (.str trainer) :: some (.str date) :: fieldVals.map some)
      = (updateTable db cfg.table_name
          ⟨t.schema,
           t.rows ++ [Val.num t.nextId :: .str now :: .str trainer :: .str date :: fieldVals],
           t.nextId + 1⟩,
         ⟨true, "Form submitted successfully!", "success"⟩) := by
  have hvmem : ∀ v ∈ fieldVals, isMissing (some v) = false := by
    intro v hv
    have hsnd : (cfg.questions.zip fieldVals).map Prod.snd = fieldVals :=
      List.map_snd_zip _ _ (le_of_eq hlen)
    rw [← hsnd] at hv
    rcases List.mem_map.mp hv with ⟨p, hp, hpv⟩
    have hqv : (p.1, v) ∈ cfg.questions.zip fieldVals := by
      rwa [show (p.1, v) = p from Prod.ext rfl hpv.symm]
    have hr := List.all_eq_true.mp hok _ hqv
    cases v with
    | null => cases hft : p.1.ftype <;> simp [rendererOk, hft] at hr
    | num i => rfl
    | str s =>
      have hs : s ≠ "" := by
        cases hft : p.1.ftype <;> simp [rendererOk, hft] at hr <;> exact hr
      simp [isMissing, hs]
  have hmiss : ((some (Val.str trainer) :: some (Val.str date) :: fieldVals.map some).any
      isMissing) = false := by
    rw [List.any_eq_false]
    intro x hx
    rcases List.mem_cons.mp hx with rfl | hx
    · simp [isMissing, htr]
    rcases List.mem_cons.mp hx with rfl | hx
    · simp [isMissing, hdt]
    rcases List.mem_map.mp hx with ⟨v, hv, rfl⟩
    simp [hvmem v hv]
  have hunwrap : ((fieldVals.map some).map unwrapArg) = fieldVals := by
    rw [List.map_map]
    have hcomp : unwrapArg ∘ some = (id : Val → Val) := funext (fun v => rfl)
    rw [hcomp, List.map_id]
  have hnames : t.schema.map (fun p => p.1)
      = "ID" :: ("SubmissionDate" :: "TrainerName" :: "TrainingDate" ::
          cfg.questions.map (fun q => q.name)) := by
    rw [hschema]
    simp only [buildSchema, List.map_append, List.map_cons, List.map_map, List.map_nil]
    rfl
  have hfind : (["SubmissionDate", "TrainerName", "TrainingDate"] ++
      cfg.questions.map (fun q => q.name)).find?
        (fun c => !((t.schema.map (fun p => p.1)).contains c)) = none := by
    rw [List.find?_eq_none]
    intro c hc
    have hcmem : c ∈ t.schema.map (fun p => p.1) := by
      rw [hnames]
      rcases List.mem_append.mp hc with h | h
      · simp only [List.mem_cons] at h
        rcases h with rfl | rfl | rfl | h
        · simp
        · simp
        · simp
        · simp at h
      · simp [h]
    simp [hcmem]
  have hlens : (["SubmissionDate", "TrainerName", "TrainingDate"] ++
        cfg.questions.map (fun q => q.name)).length
      = (Val.str now :: Val.str trainer :: Val.str date :: fieldVals).length := by
    simp [hlen]
  have hrow : mkRow t.schema t.nextId
      (["SubmissionDate", "TrainerName", "TrainingDate"] ++
        cfg.questions.map (fun q => q.name))
      (Val.str now :: Val.str trainer :: Val.str date :: fieldVals)
      = Val.num t.nextId :: .str now :: .str trainer :: .str date :: fieldVals := by
    have hrest : ["SubmissionDate", "TrainerName", "TrainingDate"] ++
        cfg.questions.map (fun q => q.name)
        = ([("SubmissionDate", ColType.text), ("TrainerName", ColType.text),
            ("TrainingDate", ColType.text)] ++
           cfg.questions.map (fun q => (q.name, colTypeOf q))).map Prod.fst := by
      simp only [List.map_append, List.map_cons, List.map_map, List.map_nil]
      rfl
    have hnd : ("ID" :: (([("SubmissionDate", ColType.text), ("TrainerName", ColType.text),
          ("TrainingDate", ColType.text)] ++
          cfg.questions.map (fun q => (q.name, colTypeOf q))).map Prod.fst)).Nodup := by
      have h0 := form_config_schema_nodup cfg hcfg
      simpa [buildSchema] using h0
    rw [hschema, hrest]
    show mkRow (("ID", ColType.integerPK) :: ([("SubmissionDate", ColType.text),
        ("TrainerName", ColType.text), ("TrainingDate", ColType.text)] ++
        cfg.questions.map (fun q => (q.name, colTypeOf q)))) t.nextId _ _ = _
    rw [mkRow_eq t.nextId _ _ (by simp [hlen]) hnd]
    congr 1
    simp only [List.cons_append, List.nil_append, List.zip_cons_cons, List.map_cons]
    rw [questions_affinity cfg.questions fieldVals hlen hok]
    rfl
  have hins : insertRow db cfg.table_name
      (["SubmissionDate", "TrainerName", "TrainingDate"] ++
        cfg.questions.map (fun q => q.name))
      (Val.str now :: Val.str trainer :: Val.str date :: fieldVals)
      = .ok (updateTable db cfg.table_name
          ⟨t.schema,
           t.rows ++ [Val.num t.nextId :: .str now :: .str trainer :: .str date :: fieldVals],
           t.nextId + 1⟩) := by
    simp only [insertRow, hlook]
    rw [hfind, if_pos hlens, hrow]
  unfold submit_form
  rw [if_neg hn, if_neg (by rw [hmiss]; exact Bool.false_ne_true)]
  simp only [List.map_cons, hunwrap, unwrapArg, Option.getD_some]
  rw [hins]

theorem submit_valid_inserts_exact_row_witness :
    submit_form "EbtModules" ["ModuleNumber", "Competency", "PerformanceScore"] dbInit
        "2024-03-01 10:00:00" 1
        [some (.str "J. Smith"), some (.str "2024-03-01"),
         some (.num 3), some (.str "Leadership"), some (.num 4)]
      = (updateTable dbInit "EbtModules"
          ⟨buildSchema ebtCfg,
           [[Val.num 1, .str "2024-03-01 10:00:00", .str "J. Smith", .str "2024-03-01",
             .num 3, .str "Leadership", .num 4]], 2⟩,
         ⟨true, "Form submitted successfully!", "success"⟩) :=
  submit_valid_inserts_exact_row ebtCfg (by decide) dbInit ⟨buildSchema ebtCfg, [], 1⟩
    (by decide) rfl "2024-03-01 10:00:00" "J. Smith" "2024-03-01"
    [.num 3, .str "Leadership", .num 4] 1 (by decide) (by decide) (by decide)
    (by decide) (by decide)

/-! ### Claim C5: listing returns all rows, newest first -/

/-- C5: on a well-formed table holding N records, `listAll` (the browse
query `SELECT * FROM t ORDER BY ID DESC`) returns exactly N records sorted
by identifier descending; and after one further successful insert,
re-listing returns N+1 records with the newly inserted record first. -/
theorem listAll_count_and_order
    (db : DB) (tbl : String) (t : Table) (N : Nat)
    (hlook : lookupTable db tbl = some t)
    (hwf : wfTable t = true)
    (hN : t.rows.length = N) :
    (∃ rows, listAll db tbl = .ok (t.schema.map (fun p => p.1), rows) ∧
       rows.length = N ∧ sortedByIdDesc rows) ∧
    (∀ rest cols vals db2, t.schema = ("ID", ColType.integerPK) :: rest →
       "ID" ∉ cols →
       insertRow db tbl cols vals = .ok db2 →
       ∃ rows2, listAll db2 tbl = .ok (t.schema.map (fun p => p.1), rows2) ∧
         rows2.length = N + 1 ∧ sortedByIdDesc rows2 ∧
         rows2.head? = some (mkRow t.schema t.nextId cols vals)) := by
  unfold wfTable at hwf
  have hold : ∀ r ∈ t.rows, getId r < t.nextId := by
    intro r hr
    have h1 := List.all_eq_true.mp hwf r hr
    cases r with
    | nil => simp at h1
    | cons v r2 =>
      cases v with
      | null => simp at h1
      | str s => simp at h1
      | num i => exact of_decide_eq_true h1
  constructor
  · refine ⟨orderByIdDesc t.rows, ?_, ?_, ?_⟩
    · simp only [listAll, hlook]
    · rw [length_orderByIdDesc, hN]
    · exact sorted_orderByIdDesc _
  · intro rest cols vals db2 hsch hid hins
    simp only [insertRow, hlook] at hins
    cases hf : (cols.find? fun c => !((t.schema.map (fun p => p.1)).contains c)) with
    | some c =>
      rw [hf] at hins
      exact Except.noConfusion hins
    | none =>
      rw [hf] at hins
      by_cases hl : cols.length = vals.length
      · rw [if_pos hl] at hins
        have hdb2 : db2 = updateTable db tbl
            ⟨t.schema, t.rows ++ [mkRow t.schema t.nextId cols vals], t.nextId + 1⟩ :=
          (Except.ok.inj hins).symm
        subst hdb2
        have hfirst : getId (mkRow t.schema t.nextId cols vals) = t.nextId := by
          have hvf : valueFor cols vals "ID" = none := valueFor_eq_none vals hid
          rw [hsch]
          unfold mkRow
          simp only [List.map_cons]
          rw [hvf]
          rfl
        refine ⟨orderByIdDesc (t.rows ++ [mkRow t.schema t.nextId cols vals]), ?_, ?_, ?_, ?_⟩
        · simp only [listAll, lookupTable_updateTable_self db _ hlook]
        · rw [length_orderByIdDesc, List.length_append, hN]
          rfl
        · exact sorted_orderByIdDesc _
        · apply head_orderByIdDesc_max
          intro x hx
          rw [hfirst]
          exact hold x hx
      · rw [if_neg hl] at hins
        exact Except.noConfusion hins

theorem listAll_count_and_order_witness :
    (∃ rows, listAll dbOne "EbtModules"
        = .ok ((buildSchema ebtCfg).map (fun p => p.1), rows) ∧
      rows.length = 1 ∧ sortedByIdDesc rows) ∧
    (∃ rows2, listAll dbTwo "EbtModules"
        = .ok ((buildSchema ebtCfg).map (fun p => p.1), rows2) ∧
      rows2.length = 2 ∧ sortedByIdDesc rows2 ∧
      rows2.head? = some (mkRow (buildSchema ebtCfg) 2 submitCols vals2)) :=
  ⟨(listAll_count_and_order dbOne "EbtModules" ⟨buildSchema ebtCfg, [ebtRow1], 2⟩ 1
      (by decide) (by decide) rfl).1,
   (listAll_count_and_order dbOne "EbtModules" ⟨buildSchema ebtCfg, [ebtRow1], 2⟩ 1
      (by decide) (by decide) rfl).2 ebtRest submitCols vals2 dbTwo
      (by decide) (by decide) (by rfl)⟩

/-! ### Claim C7: when inserts fail -/

/-- C7 counterexample: the claim that an insert fails whenever a supplied
value's type is incompatible with its column's declared type is FALSE:
`ModuleNumber` is a REAL column, yet inserting the non-numeric string
"abc" there succeeds (SQLite's non-strict tables apply affinity and store
the text as-is; no error is raised). -/
theorem insert_type_mismatch_accepted_cex :
    (buildSchema ebtCfg).find? (fun c => c.1 = "ModuleNumber")
      = some ("ModuleNumber", ColType.real) ∧
    insertRow dbInit "EbtModules" submitCols badVals = .ok dbBad :=
  ⟨by decide, by rfl⟩

/-- C7 (amended): an insert fails with a StorageError when the target table
does not exist; when the table exists, every named column is present and
the binding count matches, the insert succeeds regardless of whether the
supplied values' types match their columns' declared types (SQLite
flexible typing — the value is stored after affinity conversion). -/
theorem insert_storage_error_conditions (db : DB) (name : String)
    (cols : List String) (vals : List Val) :
    (lookupTable db name = none →
      insertRow db name cols vals = .error ("no such table: " ++ name)) ∧
    (∀ t, lookupTable db name = some t →
      (∀ c ∈ cols, c ∈ t.schema.map (fun p => p.1)) →
      cols.length = vals.length →
      insertRow db name cols vals = .ok (updateTable db name
        ⟨t.schema, t.rows ++ [mkRow t.schema t.nextId cols vals], t.nextId + 1⟩)) := by
  constructor
  · intro h
    simp only [insertRow, h]
  · intro t ht hcols hlen
    simp only [insertRow, ht]
    have hfind : cols.find? (fun c => !((t.schema.map (fun p => p.1)).contains c)) = none := by
      rw [List.find?_eq_none]
      intro c hc
      simp [hcols c hc]
    rw [hfind, if_pos hlen]

theorem insert_storage_error_conditions_witness :
    insertRow emptyDB "EbtModules" submitCols badVals
      = .error "no such table: EbtModules" ∧
    insertRow dbInit "EbtModules" submitCols badVals = .ok dbBad :=
  ⟨(insert_storage_error_conditions emptyDB "EbtModules" submitCols badVals).1 rfl,
   (insert_storage_error_conditions dbInit "EbtModules" submitCols badVals).2
     ⟨buildSchema ebtCfg, [], 1⟩ (by decide) (by decide) (by decide)⟩

/-! ### Claim C8: storage errors are translated, never escape -/

/-- C8: both handlers catch a storage error at their boundary and turn it
into a displayable danger alert carrying the underlying message.  The
submission handler, on any clicked, fully-filled submission whose insert
raises error `e`, returns the unchanged database and the alert
"Database error: e"; the browse handler, when its query fails with `e`,
returns the danger alert naming the table and `e`.  Both model functions
are total, so the failure is confined to the request's own response. -/
theorem handlers_translate_storage_errors :
    (∀ table_name question_ids db now n_clicks args e,
       n_clicks ≠ 0 →
       args.any isMissing = false →
       insertRow db table_name
           (["SubmissionDate", "TrainerName", "TrainingDate"] ++ question_ids)
           (Val.str now :: args.map unwrapArg) = .error e →
       submit_form table_name question_ids db now n_clicks args
         = (db, ⟨true, "Database error: " ++ e, "danger"⟩)) ∧
    (∀ db tbl e, tbl ≠ "" → listAll db tbl = .error e →
       display_admin_table db (some tbl)
         = .errorAlert ("Error loading data for table \x27" ++ tbl ++ "\x27: " ++ e)
             "danger") := by
  constructor
  · intro tbl qids db now n args e hn hmiss hins
    unfold submit_form
    rw [if_neg hn, if_neg (by rw [hmiss]; exact Bool.false_ne_true)]
    simp only [hins]
  · intro db tbl e htbl hl
    simp only [display_admin_table]
    rw [if_neg htbl, hl]

theorem handlers_translate_storage_errors_witness :
    submit_form "EbtModules" ["ModuleNumber", "Competency", "PerformanceScore"] emptyDB
        "2024-03-01 10:00:00" 1
        [some (.str "J. Smith"), some (.str "2024-03-01"),
         some (.num 3), some (.str "Leadership"), some (.num 4)]
      = (emptyDB, ⟨true, "Database error: no such table: EbtModules", "danger"⟩) ∧
    display_admin_table emptyDB (some "EbtModules")
      = .errorAlert
          "Error loading data for table \x27EbtModules\x27: no such table: EbtModules"
          "danger" :=
  ⟨handlers_translate_storage_errors.1 "EbtModules"
     ["ModuleNumber", "Competency", "PerformanceScore"] emptyDB "2024-03-01 10:00:00" 1
     [some (.str "J. Smith"), some (.str "2024-03-01"),
      some (.num 3), some (.str "Leadership"), some (.num 4)]
     "no such table: EbtModules" (by decide) (by decide) (by rfl),
   handlers_translate_storage_errors.2 emptyDB "EbtModules" "no such table: EbtModules"
     (by decide) (by rfl)⟩

/-! ### Claim C9: per-form handler binding -/

lemma insertRow_ok_shape {db : DB} {name : String} {cols : List String} {vals : List Val}
    {db2 : DB} (h : insertRow db name cols vals = .ok db2) :
    ∃ t2, db2 = updateTable db name t2 := by
  cases hl : lookupTable db name with
  | none =>
    simp only [insertRow, hl] at h
    exact Except.noConfusion h
  | some t =>
    simp only [insertRow, hl] at h
    cases hf : (cols.find? fun c => !((t.schema.map (fun p => p.1)).contains c)) with
    | some c => rw [hf] at h; exact Except.noConfusion h
    | none =>
      rw [hf] at h
      by_cases hlen : cols.length = vals.length
      · rw [if_pos hlen] at h
        exact ⟨_, (Except.ok.inj h).symm⟩
      · rw [if_neg hlen] at h
        exact Except.noConfusion h

lemma submit_form_db_shape (tbl : String) (qids : List String) (db : DB) (now : String)
    (n_clicks : Nat) (args : List (Option Val)) :
    (submit_form tbl qids db now n_clicks args).1 = db ∨
    ∃ t2, (submit_form tbl qids db now n_clicks args).1 = updateTable db tbl t2 := by
  unfold submit_form
  by_cases hn : n_clicks = 0
  · rw [if_pos hn]
    exact Or.inl rfl
  rw [if_neg hn]
  by_cases hm : args.any isMissing = true
  · rw [if_pos hm]
    exact Or.inl rfl
  rw [if_neg hm]
  cases hins : insertRow db tbl (["SubmissionDate", "TrainerName", "TrainingDate"] ++ qids)
      (Val.str now :: args.map unwrapArg) with
  | ok db2 =>
    rcases insertRow_ok_shape hins with ⟨t2, ht2⟩
    refine Or.inr ⟨t2, ?_⟩
    simp only [hins]
    exact ht2
  | error e =>
    simp only [hins]
    exact Or.inl trivial

/-- C9: every registered submission handler is built by
`create_form_callback`, which receives the form's name and configuration as
explicit parameters (not by closing over the registration loop's variable):
the handler constructed for a form carries that form's own table name and
its own ordered question-id list, appears in the registered-handler map
under the form's name, no two distinct forms share a table name, and
running a form's handler never touches any other table. -/
theorem handler_explicit_binding :
    ∀ cfg ∈ FORM_CONFIG,
      (create_form_callback cfg.name cfg).table_name = cfg.table_name ∧
      (create_form_callback cfg.name cfg).question_ids
          = cfg.questions.map (fun q => q.name) ∧
      (cfg.name, create_form_callback cfg.name cfg) ∈ registeredHandlers ∧
      (∀ other ∈ FORM_CONFIG, other.name ≠ cfg.name → other.table_name ≠ cfg.table_name) ∧
      (∀ db now n_clicks args tbl2, tbl2 ≠ cfg.table_name →
        lookupTable ((create_form_callback cfg.name cfg).run db now n_clicks args).1 tbl2
          = lookupTable db tbl2) := by
  intro cfg hcfg
  refine ⟨rfl, rfl, ?_, ?_, ?_⟩
  · exact List.mem_map.mpr ⟨cfg, hcfg, rfl⟩
  · intro other ho hne
    exact form_config_tables_distinct other ho cfg hcfg hne
  · intro db now n_clicks args tbl2 hne
    rcases submit_form_db_shape cfg.table_name (cfg.questions.map (fun q => q.name))
        db now n_clicks args with h | ⟨t2, h⟩
    · show lookupTable (submit_form cfg.table_name (cfg.questions.map (fun q => q.name))
          db now n_clicks args).1 tbl2 = lookupTable db tbl2
      rw [h]
    · show lookupTable (submit_form cfg.table_name (cfg.questions.map (fun q => q.name))
          db now n_clicks args).1 tbl2 = lookupTable db tbl2
      rw [h]
      exact lookupTable_updateTable_ne db t2 hne

theorem handler_explicit_binding_witness :
    (create_form_callback ebtCfg.name ebtCfg).table_name = "EbtModules" ∧
    lookupTable ((create_form_callback ebtCfg.name ebtCfg).run dbInit "2024-03-01 10:00:00" 1
        [some (.str "J. Smith"), some (.str "2024-03-01"),
         some (.num 3), some (.str "Leadership"), some (.num 4)]).1 "LineEvents"
      = lookupTable dbInit "LineEvents" :=
  ⟨(handler_explicit_binding ebtCfg (by decide)).1,
   (handler_explicit_binding ebtCfg (by decide)).2.2.2.2 dbInit "2024-03-01 10:00:00" 1
     [some (.str "J. Smith"), some (.str "2024-03-01"),
      some (.num 3), some (.str "Leadership"), some (.num 4)] "LineEvents" (by decide)⟩

end PilotPortal
